import Mathlib

set_option linter.unusedVariables false

/-!
Verification model of the live-video-streaming repository.

The definitions below are a shallow embedding of the Go sources:

* the broadcast package (stream registry, per-stream state machine,
  viewer fan-out) from the file defining BroadcastManager and Stream;
* the orchestrator package (pkg/orchestrator/stream.go);
* the handler glue startStreamOrchestrator.

Go channels are modelled as bounded FIFO lists; closing a channel is
modelled with a close counter (a count of 2 corresponds to the runtime
panic close of closed channel).  Timestamps are rationals (seconds).
Machine float64 durations are modelled as rationals; the Go conversion
int(x) is truncation toward zero, and the Go integer modulo operator is
truncated modulo, which panics when the divisor is zero (modelled with
Option).  File paths are lists of characters so that the Go string
operations used by the orchestrator (Contains, Split, HasPrefix) stay
kernel-computable.
-/

namespace LiveVideo

/-! ## Stream status and results (broadcast package) -/

/-- StreamStatus: the four constants of the broadcast package. -/
inductive StreamStatus where
  | idle
  | streaming
  | paused
  | stopped
deriving DecidableEq, Repr

/-- Result of Stream.Start / Stream.Stop: nil, or one of the two error
strings returned by the Go methods. -/
inductive StreamResult where
  | ok
  | errAlreadyStarted
  | errNotStreaming
deriving DecidableEq, Repr

/-- Capacity of the broadcast bus channel: make(chan, 100) in CreateStream. -/
def busCap : Nat := 100

/-- Capacity of a viewer DataChan: make(chan, 10) in AddViewer. -/
def viewerChanCap : Nat := 10

/-- Viewer record.  dataChan is the buffered content of the DataChan
channel, dataChanCloseCount counts executions of close(DataChan) (a
second close would panic at runtime), closed is the guard flag of the Go
struct, and received is a ghost list of every frame ever enqueued to
this viewer, in order. -/
structure Viewer where
  id : String
  connectedAt : ℚ
  dataChan : List Nat
  dataChanCloseCount : Nat
  closed : Bool
  received : List Nat
deriving DecidableEq, Repr

/-! ## Orchestrator (pkg/orchestrator/stream.go) -/

/-- Result of StreamOrchestrator.Start / Stop. -/
inductive OrchResult where
  | ok
  | errAlreadyRunning
  | errTranscoder
  | errUploaderCreate
  | errUploaderStart
deriving DecidableEq, Repr

/-- StreamOrchestrator state: the running flag, plus the observable
state of the owned transcoder and uploader and the cancellation
context. -/
structure StreamOrchestrator where
  streamID : String
  running : Bool
  transcoderRunning : Bool
  uploaderRunning : Bool
  ctxCancelled : Bool
deriving DecidableEq, Repr

/-- NewStreamOrchestrator: fresh orchestrator, nothing running. -/
def NewStreamOrchestrator (streamID : String) : StreamOrchestrator :=
  { streamID := streamID
    running := false
    transcoderRunning := false
    uploaderRunning := false
    ctxCancelled := false }

/-- File paths as character lists (Go strings). -/
abbrev Path := List Char

/-- Environment for orchestrator Start: the filesystem as seen at each
500 ms poll tick (os.Stat result: none is an error, some n a size), and
the success of the three fallible pipeline steps (transcoder start,
uploader creation, uploader start). -/
structure OrchEnv where
  fs : Nat → Path → Option ℤ
  transcoderOk : Bool
  uploaderNewOk : Bool
  uploaderStartOk : Bool

/-- Go strings.Split(s, sep) for the one-character separator used by
the orchestrator; acc is the piece currently being accumulated. -/
def splitPipeAux : Path → Path → List Path
  | [], acc => [acc]
  | c :: cs, acc =>
      if c = '|' then acc :: splitPipeAux cs []
      else splitPipeAux cs (acc ++ [c])

/-- Go strings.Split(inputURL, pipe). -/
def splitPipe (s : Path) : List Path := splitPipeAux s []

/-- Go strings.HasPrefix(s, slash). -/
def startsWithSlash : Path → Bool
  | [] => false
  | c :: _ => c = '/'

/-- The file-list extraction at the top of waitForInputFiles: a
pipe-delimited list is split, a path starting with a slash is a
singleton, anything else is not a file path (none: skip waiting). -/
def parseInputFiles (inputURL : Path) : Option (List Path) :=
  if inputURL.contains '|' then some (splitPipe inputURL)
  else if startsWithSlash inputURL then some [inputURL]
  else none

/-- Number of guaranteed 500 ms poll ticks before the 10 s timeout
fires: ticks at 0.5 s .. 9.5 s happen strictly before the timeout. -/
def numPolls : Nat := 19

/-- One poll: every file os.Stats without error and has size at least
1024 bytes. -/
def allInputsReady (fs : Nat → Path → Option ℤ) (t : Nat) (files : List Path) : Bool :=
  files.all fun f =>
    match fs t f with
    | some size => decide (1024 ≤ size)
    | none => false

/-- The poll loop of waitForInputFiles: try the current tick, else
recurse on the next one; false when the timeout budget is exhausted. -/
def pollInputs (fs : Nat → Path → Option ℤ) (files : List Path) : Nat → Nat → Bool
  | _, 0 => false
  | t, fuel + 1 =>
      if allInputsReady fs t files then true else pollInputs fs files (t + 1) fuel

/-- waitForInputFiles: true means the files became ready (or the input
is not a file path and waiting is skipped); false is the timeout error,
which Start only logs. -/
def waitForInputFiles (fs : Nat → Path → Option ℤ) (inputURL : Path) : Bool :=
  match parseInputFiles inputURL with
  | none => true
  | some files => pollInputs fs files 1 numPolls

/-- StreamOrchestrator.Start.  Mirrors the Go control flow: reject when
already running; wait for input files (result only logged); start the
transcoder; create and start the uploader, stopping the transcoder if
either uploader step fails; set running on full success. -/
def OrchStart (o : StreamOrchestrator) (env : OrchEnv) (inputURL : Path) :
    StreamOrchestrator × OrchResult :=
  if o.running then (o, .errAlreadyRunning)
  else
    let ready := waitForInputFiles env.fs inputURL
    if env.transcoderOk = false then (o, .errTranscoder)
    else if env.uploaderNewOk = false then
      ({ o with transcoderRunning := false }, .errUploaderCreate)
    else if env.uploaderStartOk = false then
      ({ o with transcoderRunning := false }, .errUploaderStart)
    else
      ({ o with transcoderRunning := true, uploaderRunning := true, running := true }, .ok)

/-- StreamOrchestrator.Stop: returns nil with no side effects when not
running; otherwise stops the uploader, the transcoder, cancels the
context and clears running. -/
def OrchStop (o : StreamOrchestrator) : StreamOrchestrator × OrchResult :=
  if o.running = false then (o, .ok)
  else
    ({ o with uploaderRunning := false, transcoderRunning := false,
              ctxCancelled := true, running := false }, .ok)

/-! ## Stream (broadcast package) -/

/-- Stream record.  broadcast is the buffered content of the broadcast
channel (capacity busCap); stopChanCloseCount counts executions of
close(stopChan) (2 would be the double-close panic); offered, enqueued
and departed are ghost fields: every frame passed to Broadcast, every
frame actually enqueued on the bus, and every viewer deleted by
RemoveViewer.  The webrtcIngest reference is omitted (not used by any
modelled operation). -/
structure Stream where
  id : String
  videoURL : String
  hlsPlaylistURL : String
  gcsPath : String
  status : StreamStatus
  createdAt : ℚ
  startedAt : Option ℚ
  viewerCount : Nat
  currentPosition : ℚ
  videoDuration : ℚ
  viewers : List Viewer
  broadcast : List Nat
  stopChanClosed : Bool
  stopChanCloseCount : Nat
  orchestrator : Option StreamOrchestrator
  offered : List Nat
  enqueued : List Nat
  departed : List Viewer
deriving DecidableEq, Repr

/-- The stream built by BroadcastManager.CreateStream. -/
def freshStream (id videoURL gcsPath : String) (now : ℚ) : Stream :=
  { id := id
    videoURL := videoURL
    hlsPlaylistURL := ""
    gcsPath := gcsPath
    status := .idle
    createdAt := now
    startedAt := none
    viewerCount := 0
    currentPosition := 0
    videoDuration := 0
    viewers := []
    broadcast := []
    stopChanClosed := false
    stopChanCloseCount := 0
    orchestrator := none
    offered := []
    enqueued := []
    departed := [] }

/-- Stream.Start: error when already streaming, otherwise move to
streaming and record startedAt.  The guard only excludes the streaming
state, so an idle, paused or stopped stream passes it. -/
def Stream.Start (s : Stream) (now : ℚ) : Stream × StreamResult :=
  if s.status = .streaming then (s, .errAlreadyStarted)
  else ({ s with status := .streaming, startedAt := some now }, .ok)

/-- Closing a viewer DataChan as Stop and RemoveViewer do: guarded by
the closed flag, so the counter moves 0 to 1 at most once through this
function. -/
def closeViewerChan (v : Viewer) : Viewer :=
  if v.closed then v
  else { v with dataChanCloseCount := v.dataChanCloseCount + 1, closed := true }

/-- Stream.Stop: error when not streaming; otherwise set stopped, close
stopChan unconditionally (the close counter records a double close), and
close every viewer DataChan under its closed-flag guard. -/
def Stream.Stop (s : Stream) : Stream × StreamResult :=
  if s.status = .streaming then
    ({ s with status := .stopped
              stopChanClosed := true
              stopChanCloseCount := s.stopChanCloseCount + 1
              viewers := s.viewers.map closeViewerChan }, .ok)
  else (s, .errNotStreaming)

/-- Go map assignment viewers[id] = v: replace when the key exists,
otherwise add. -/
def insertViewer (vs : List Viewer) (v : Viewer) : List Viewer :=
  if vs.any fun w => w.id = v.id then
    vs.map fun w => if w.id = v.id then v else w
  else vs ++ [v]

/-- Stream.AddViewer: a fresh viewer with an empty DataChan is added
and ViewerCount is reassigned from len(viewers). -/
def Stream.AddViewer (s : Stream) (viewerID : String) (now : ℚ) : Stream × Viewer :=
  let v : Viewer :=
    { id := viewerID
      connectedAt := now
      dataChan := []
      dataChanCloseCount := 0
      closed := false
      received := [] }
  let vs := insertViewer s.viewers v
  ({ s with viewers := vs, viewerCount := vs.length }, v)

/-- Stream.RemoveViewer: when the id is present, close its DataChan
under the closed-flag guard, delete it from the map and reassign
ViewerCount; otherwise do nothing.  The deleted viewer is recorded in
the ghost field departed. -/
def Stream.RemoveViewer (s : Stream) (viewerID : String) : Stream :=
  if s.viewers.any fun w => w.id = viewerID then
    let gone := (s.viewers.filter fun w => w.id = viewerID).map closeViewerChan
    let vs := s.viewers.filter fun w => ¬(w.id = viewerID)
    { s with viewers := vs, viewerCount := vs.length, departed := s.departed ++ gone }
  else s

/-- Stream.Broadcast: nonblocking send on the bus channel; the frame is
enqueued when the buffer has room and silently dropped otherwise.  The
ghost field offered records the call either way. -/
def Stream.Broadcast (s : Stream) (data : Nat) : Stream :=
  if s.broadcast.length < busCap then
    { s with broadcast := s.broadcast ++ [data]
             enqueued := s.enqueued ++ [data]
             offered := s.offered ++ [data] }
  else { s with offered := s.offered ++ [data] }

/-- One iteration of the bus arm of broadcastLoop: dequeue the oldest
bus frame and nonblockingly send it to every viewer DataChan, dropping
at any viewer whose buffer is full. -/
def Stream.deliverOne (s : Stream) : Stream :=
  match s.broadcast with
  | [] => s
  | data :: rest =>
      { s with broadcast := rest
               viewers := s.viewers.map fun v =>
                 if v.dataChan.length < viewerChanCap then
                   { v with dataChan := v.dataChan ++ [data], received := v.received ++ [data] }
                 else v }

/-- A viewer-side receive from its DataChan (the subscriber's delivery
task); the ghost received history is unchanged. -/
def Stream.consumeOne (s : Stream) (viewerID : String) : Stream :=
  { s with viewers := s.viewers.map fun v =>
      if v.id = viewerID then { v with dataChan := v.dataChan.drop 1 } else v }

/-- Go int(x) on a float64: truncation toward zero. -/
def goTrunc (q : ℚ) : ℤ := if 0 ≤ q then ⌊q⌋ else -⌊-q⌋

/-- Go integer modulo: truncated modulo, a runtime panic (none) when
the divisor is zero. -/
def goIntMod (a b : ℤ) : Option ℤ :=
  if b = 0 then none else some (Int.tmod a b)

/-- Stream.GetCurrentPosition at absolute time now: 0 when startedAt is
unset or the duration is not positive, otherwise
float64(int(uptime) mod int(videoDuration)); none is the mod-by-zero
panic. -/
def Stream.GetCurrentPosition (s : Stream) (now : ℚ) : Option ℚ :=
  match s.startedAt with
  | none => some 0
  | some t0 =>
      if s.videoDuration ≤ 0 then some 0
      else (goIntMod (goTrunc (now - t0)) (goTrunc s.videoDuration)).map fun z => (z : ℚ)

/-- The current-position computation inside Stream.GetStats: the outer
none is the mod-by-zero panic, an inner none means the stats map has no
current-position entry (startedAt unset or duration not positive). -/
def Stream.statsCurrentPosition (s : Stream) (now : ℚ) : Option (Option ℚ) :=
  match s.startedAt with
  | none => some none
  | some t0 =>
      if 0 < s.videoDuration then
        (goIntMod (goTrunc (now - t0)) (goTrunc s.videoDuration)).map fun z => some (z : ℚ)
      else some none

/-- Stream.SetVideoDuration. -/
def Stream.SetVideoDuration (s : Stream) (duration : ℚ) : Stream :=
  { s with videoDuration := duration }

/-- Stream.SetOrchestrator. -/
def Stream.SetOrchestrator (s : Stream) (orch : StreamOrchestrator) : Stream :=
  { s with orchestrator := some orch }

/-- The WebRTC ingest video file path used by startStreamOrchestrator. -/
def ingestVideoPath (streamID : String) : Path :=
  "/tmp/webrtc-ingest/".data ++ streamID.data ++ "/video.ivf".data

/-- BroadcastHandler.startStreamOrchestrator: create a new orchestrator,
bind it to the stream with SetOrchestrator, then call its Start with the
ingest video path; the binding stays in place even when Start fails. -/
def startStreamOrchestrator (s : Stream) (env : OrchEnv) : Stream × OrchResult :=
  let orch := NewStreamOrchestrator s.id
  let s1 := s.SetOrchestrator orch
  let r := OrchStart orch env (ingestVideoPath s.id)
  ({ s1 with orchestrator := some r.1 }, r.2)

/-! ## Registry (BroadcastManager) -/

/-- BroadcastManager: the stream registry, a map from stream id. -/
structure BroadcastManager where
  streams : List (String × Stream)
deriving DecidableEq, Repr

/-- NewBroadcastManager. -/
def NewBroadcastManager : BroadcastManager := ⟨[]⟩

/-- Registry map lookup. -/
def lookupStream (bm : BroadcastManager) (streamID : String) : Option Stream :=
  (bm.streams.find? fun p => p.1 = streamID).map Prod.snd

/-- BroadcastManager.CreateStream: insert a fresh idle stream under the
generated id. -/
def BroadcastManager.CreateStream (bm : BroadcastManager)
    (streamID videoURL gcsPath : String) (now : ℚ) : BroadcastManager × Stream :=
  let s := freshStream streamID videoURL gcsPath now
  (⟨bm.streams ++ [(streamID, s)]⟩, s)

/-- BroadcastManager.GetStream: none is the stream-not-found error. -/
def BroadcastManager.GetStream (bm : BroadcastManager) (streamID : String) : Option Stream :=
  lookupStream bm streamID

/-- BroadcastManager.DeleteStream: error when absent; otherwise call
Stream.Stop first when the stream is streaming, then delete the map
entry.  The returned stream value is the state of the removed stream
object at removal time (observable through remaining references). -/
def BroadcastManager.DeleteStream (bm : BroadcastManager) (streamID : String) :
    BroadcastManager × Except Unit Stream :=
  match lookupStream bm streamID with
  | none => (bm, .error ())
  | some s =>
      let s1 := if s.status = .streaming then (Stream.Stop s).1 else s
      (⟨bm.streams.filter fun p => ¬(p.1 = streamID)⟩, .ok s1)

/-! ## Trace semantics for one stream -/

/-- Operations on one stream that the registry, the handlers, the
fan-out loop and the subscriber tasks can interleave. -/
inductive Op where
  | start (now : ℚ)
  | stop
  | addViewer (viewerID : String) (now : ℚ)
  | removeViewer (viewerID : String)
  | broadcast (data : Nat)
  | deliver
  | consume (viewerID : String)
deriving DecidableEq, Repr

/-- One step of the stream semantics. -/
def step (s : Stream) : Op → Stream
  | .start now => (Stream.Start s now).1
  | .stop => (Stream.Stop s).1
  | .addViewer vid now => (Stream.AddViewer s vid now).1
  | .removeViewer vid => Stream.RemoveViewer s vid
  | .broadcast d => Stream.Broadcast s d
  | .deliver => Stream.deliverOne s
  | .consume vid => Stream.consumeOne s vid

/-- Run a trace of operations. -/
def run (s : Stream) (ops : List Op) : Stream := ops.foldl step s

/-- Whether an operation is a Start call. -/
def isStartOp : Op → Bool
  | .start _ => true
  | _ => false

/-- Number of Start calls in a trace. -/
def startOps (ops : List Op) : Nat := ops.countP isStartOp

/-! ## Invariant predicates -/

/-- The close counter of a viewer DataChan tracks the closed flag. -/
def ViewerCloseInv (v : Viewer) : Prop :=
  v.dataChanCloseCount = if v.closed then 1 else 0

/-- All live and departed viewer channels have consistent close state;
departed ones were closed exactly once. -/
def ChanInv (s : Stream) : Prop :=
  (∀ v ∈ s.viewers, ViewerCloseInv v) ∧
    ∀ v ∈ s.departed, v.closed = true ∧ v.dataChanCloseCount = 1

/-- One when the status is streaming (a pending close of stopChan). -/
def statusWeight (st : StreamStatus) : Nat :=
  if st = .streaming then 1 else 0

/-- ViewerCount tracks the size of the viewers map, whose keys stay
distinct. -/
def CountInv (s : Stream) : Prop :=
  s.viewerCount = s.viewers.length ∧ (s.viewers.map Viewer.id).Nodup

/-- The bus buffer is the undelivered suffix of the enqueued frames and
every live viewer has received a subsequence of the delivered prefix;
enqueued frames are a subsequence of the offered ones. -/
def BusInv (s : Stream) : Prop :=
  (∃ n, n ≤ s.enqueued.length ∧ s.broadcast = s.enqueued.drop n ∧
      ∀ v ∈ s.viewers, List.Sublist v.received (s.enqueued.take n)) ∧
    List.Sublist s.enqueued s.offered

/-! ## Concrete fixtures for witnesses and counterexamples -/

/-- Environment in which every pipeline step succeeds and the input
files are ready at every poll. -/
def envAllOk : OrchEnv := ⟨fun _ _ => some 2048, true, true, true⟩

/-- Environment in which the input files never appear (readiness wait
times out) but the pipeline steps succeed. -/
def envNoFiles : OrchEnv := ⟨fun _ _ => none, true, true, true⟩

/-- Filesystem in which every file always has 2048 bytes. -/
def fsReady : Nat → Path → Option ℤ := fun _ _ => some 2048

/-- A started stream whose video duration is one half second. -/
def streamHalfSecond : Stream :=
  { freshStream "s1" "u" "g" 0 with startedAt := some 0, videoDuration := 1/2 }

/-- A started stream whose video duration is three seconds. -/
def streamThreeSeconds : Stream :=
  { freshStream "s1" "u" "g" 0 with startedAt := some 0, videoDuration := 3 }

/-- A freshly created stream. -/
def demoFresh : Stream := freshStream "s1" "u" "g" 0

/-- The fresh stream after a successful Start. -/
def demoStreaming : Stream := (Stream.Start demoFresh 1).1

/-- The started stream after a successful Stop. -/
def demoStopped : Stream := (Stream.Stop demoStreaming).1

/-- The stopped stream after a second Start (which the code accepts). -/
def demoRestarted : Stream := (Stream.Start demoStopped 2).1

/-- A streaming stream with a bound, running orchestrator, built through
the handler path. -/
def demoStreamingOrch : Stream := (startStreamOrchestrator demoStreaming envAllOk).1

/-- A registry holding the streaming stream with its running
orchestrator. -/
def demoManager : BroadcastManager := ⟨[("s1", demoStreamingOrch)]⟩

/-- A stream whose bus buffer is full. -/
def fullBusStream : Stream :=
  { demoStreaming with
      broadcast := List.replicate busCap 7
      enqueued := List.replicate busCap 7
      offered := List.replicate busCap 7 }

/-- A small trace: a viewer joins, the stream starts, one frame is
broadcast and delivered. -/
def demoOps : List Op :=
  [Op.addViewer "v" 0, Op.start 1, Op.broadcast 5, Op.deliver]

/-- The state of the viewer of demoOps after the delivery. -/
def demoViewer : Viewer :=
  { id := "v"
    connectedAt := 0
    dataChan := [5]
    dataChanCloseCount := 0
    closed := false
    received := [5] }

/-! ## Helper lemmas -/

lemma goIntMod_zero (a : ℤ) : goIntMod a 0 = none := by
  simp [goIntMod]

lemma goTrunc_nonneg (q : ℚ) (h : 0 ≤ q) : goTrunc q = ⌊q⌋ := by
  simp [goTrunc, h]

lemma OrchStart_ok_state (o : StreamOrchestrator) (env : OrchEnv) (u : Path)
    (h : (OrchStart o env u).2 = .ok) :
    (OrchStart o env u).1 =
      { o with transcoderRunning := true, uploaderRunning := true, running := true } := by
  by_cases hr : o.running <;>
    by_cases ht : env.transcoderOk <;>
      by_cases hn : env.uploaderNewOk <;>
        by_cases hs : env.uploaderStartOk <;>
          simp_all [OrchStart]

lemma closeViewerChan_closed (v : Viewer) : (closeViewerChan v).closed = true := by
  rw [closeViewerChan]
  split
  · assumption
  · rfl

lemma closeViewerChan_id (v : Viewer) : (closeViewerChan v).id = v.id := by
  rw [closeViewerChan]
  split <;> rfl

lemma closeViewerChan_received (v : Viewer) : (closeViewerChan v).received = v.received := by
  rw [closeViewerChan]
  split <;> rfl

lemma map_viewer_id_of_preserve (vs : List Viewer) (f : Viewer → Viewer)
    (hf : ∀ v, (f v).id = v.id) :
    (vs.map f).map Viewer.id = vs.map Viewer.id := by
  rw [List.map_map]
  exact List.map_congr_left fun v _ => hf v

lemma mem_insertViewer (vs : List Viewer) (v w : Viewer) (h : w ∈ insertViewer vs v) :
    w ∈ vs ∨ w = v := by
  rw [insertViewer] at h
  split at h
  · obtain ⟨u, hu, he⟩ := List.mem_map.mp h
    by_cases hc : u.id = v.id
    · right
      rw [← he, if_pos hc]
    · left
      rw [← he, if_neg hc]
      exact hu
  · rcases List.mem_append.mp h with h1 | h1
    · exact Or.inl h1
    · exact Or.inr (by simpa using h1)

lemma insertViewer_ids_nodup (vs : List Viewer) (v : Viewer)
    (h : (vs.map Viewer.id).Nodup) : ((insertViewer vs v).map Viewer.id).Nodup := by
  rw [insertViewer]
  split
  · have heq : ((vs.map fun w => if w.id = v.id then v else w).map Viewer.id) =
        vs.map Viewer.id := by
      rw [List.map_map]
      refine List.map_congr_left fun w _ => ?_
      by_cases hw : w.id = v.id
      · simp [Function.comp, hw]
      · simp [Function.comp, hw]
    rw [heq]
    exact h
  · rename_i hany
    rw [List.map_append]
    refine List.Nodup.append h (List.nodup_singleton _) ?_
    intro a ha hb
    have hav : a = v.id := by simpa using hb
    obtain ⟨w, hw, hwa⟩ := List.mem_map.mp ha
    exact hany (List.any_eq_true.mpr ⟨w, hw, by simp [hwa, hav]⟩)

lemma countInv_step (s : Stream) (op : Op) (h : CountInv s) : CountInv (step s op) := by
  obtain ⟨h1, h2⟩ := h
  cases op with
  | start now =>
      simp only [step, Stream.Start]
      split
      · exact ⟨h1, h2⟩
      · exact ⟨h1, h2⟩
  | stop =>
      simp only [step, Stream.Stop]
      split
      · refine ⟨?_, ?_⟩
        · rw [List.length_map]
          exact h1
        · rw [map_viewer_id_of_preserve _ _ closeViewerChan_id]
          exact h2
      · exact ⟨h1, h2⟩
  | addViewer vid now =>
      exact ⟨rfl, insertViewer_ids_nodup _ _ h2⟩
  | removeViewer vid =>
      simp only [step, Stream.RemoveViewer]
      split
      · exact ⟨rfl, h2.sublist (List.Sublist.map Viewer.id (List.filter_sublist _))⟩
      · exact ⟨h1, h2⟩
  | broadcast d =>
      simp only [step, Stream.Broadcast]
      split
      · exact ⟨h1, h2⟩
      · exact ⟨h1, h2⟩
  | deliver =>
      simp only [step, Stream.deliverOne]
      split
      · exact ⟨h1, h2⟩
      · refine ⟨?_, ?_⟩
        · rw [List.length_map]
          exact h1
        · rw [map_viewer_id_of_preserve]
          · exact h2
          · intro v
            by_cases hc : v.dataChan.length < viewerChanCap <;> simp [hc]
  | consume vid =>
      simp only [step, Stream.consumeOne]
      refine ⟨?_, ?_⟩
      · rw [List.length_map]
        exact h1
      · rw [map_viewer_id_of_preserve]
        · exact h2
        · intro v
          by_cases hc : v.id = vid <;> simp [hc]

lemma countInv_run (ops : List Op) : ∀ s : Stream, CountInv s → CountInv (run s ops) := by
  induction ops with
  | nil => intro s h; exact h
  | cons op ops ih =>
      intro s h
      exact ih (step s op) (countInv_step s op h)

lemma viewerCloseInv_close (v : Viewer) (h : ViewerCloseInv v) :
    ViewerCloseInv (closeViewerChan v) := by
  rw [ViewerCloseInv] at h ⊢
  rw [closeViewerChan]
  split
  · rename_i hc
    rw [h, if_pos hc]
  · rename_i hc
    simp only [Bool.not_eq_true] at hc
    simp [hc] at h
    simp [h]

lemma closeViewerChan_spec (v : Viewer) (h : ViewerCloseInv v) :
    (closeViewerChan v).closed = true ∧ (closeViewerChan v).dataChanCloseCount = 1 := by
  rw [ViewerCloseInv] at h
  rw [closeViewerChan]
  split
  · rename_i hc
    refine ⟨hc, ?_⟩
    rw [h, if_pos hc]
  · rename_i hc
    simp only [Bool.not_eq_true] at hc
    simp [hc] at h
    exact ⟨rfl, by simp [h]⟩

lemma chanInv_step (s : Stream) (op : Op) (h : ChanInv s) : ChanInv (step s op) := by
  obtain ⟨h1, h2⟩ := h
  cases op with
  | start now =>
      simp only [step, Stream.Start]
      split
      · exact ⟨h1, h2⟩
      · exact ⟨h1, h2⟩
  | stop =>
      simp only [step, Stream.Stop]
      split
      · refine ⟨?_, h2⟩
        intro v hv
        obtain ⟨w, hw, rfl⟩ := List.mem_map.mp hv
        exact viewerCloseInv_close w (h1 w hw)
      · exact ⟨h1, h2⟩
  | addViewer vid now =>
      refine ⟨?_, h2⟩
      intro v hv
      rcases mem_insertViewer _ _ _ hv with h3 | rfl
      · exact h1 v h3
      · rfl
  | removeViewer vid =>
      simp only [step, Stream.RemoveViewer]
      split
      · refine ⟨?_, ?_⟩
        · intro v hv
          exact h1 v (List.mem_filter.mp hv).1
        · intro v hv
          rcases List.mem_append.mp hv with h3 | h3
          · exact h2 v h3
          · obtain ⟨w, hw, rfl⟩ := List.mem_map.mp h3
            exact closeViewerChan_spec w (h1 w (List.mem_filter.mp hw).1)
      · exact ⟨h1, h2⟩
  | broadcast d =>
      simp only [step, Stream.Broadcast]
      split
      · exact ⟨h1, h2⟩
      · exact ⟨h1, h2⟩
  | deliver =>
      simp only [step, Stream.deliverOne]
      split
      · exact ⟨h1, h2⟩
      · refine ⟨?_, h2⟩
        intro v hv
        obtain ⟨w, hw, rfl⟩ := List.mem_map.mp hv
        have hw1 := h1 w hw
        rw [ViewerCloseInv] at hw1 ⊢
        by_cases hc : w.dataChan.length < viewerChanCap <;> simp [hc, hw1]
  | consume vid =>
      simp only [step, Stream.consumeOne]
      refine ⟨?_, h2⟩
      intro v hv
      obtain ⟨w, hw, rfl⟩ := List.mem_map.mp hv
      have hw1 := h1 w hw
      rw [ViewerCloseInv] at hw1 ⊢
      by_cases hc : w.id = vid <;> simp [hc, hw1]

lemma chanInv_run (ops : List Op) : ∀ s : Stream, ChanInv s → ChanInv (run s ops) := by
  induction ops with
  | nil => intro s h; exact h
  | cons op ops ih =>
      intro s h
      exact ih (step s op) (chanInv_step s op h)

lemma stopWeight_step (s : Stream) (op : Op) :
    (step s op).stopChanCloseCount + statusWeight (step s op).status ≤
      s.stopChanCloseCount + statusWeight s.status + (if isStartOp op then 1 else 0) := by
  cases op with
  | start now =>
      have hop : (if isStartOp (Op.start now) then 1 else 0) = 1 := rfl
      rw [hop]
      simp only [step, Stream.Start]
      split
      · try dsimp only
        omega
      · try dsimp only
        have h1 : statusWeight .streaming = 1 := rfl
        have h2 : statusWeight s.status ≤ 1 := by rw [statusWeight]; split <;> omega
        omega
  | stop =>
      have hop : (if isStartOp Op.stop then 1 else 0) = 0 := rfl
      rw [hop]
      simp only [step, Stream.Stop]
      split
      · rename_i hst
        try dsimp only
        have h1 : statusWeight .stopped = 0 := rfl
        have h2 : statusWeight s.status = 1 := by rw [hst]; rfl
        omega
      · try dsimp only
        omega
  | addViewer vid now =>
      have hop : (if isStartOp (Op.addViewer vid now) then 1 else 0) = 0 := rfl
      rw [hop]
      simp only [step, Stream.AddViewer]
      try dsimp only
      omega
  | removeViewer vid =>
      have hop : (if isStartOp (Op.removeViewer vid) then 1 else 0) = 0 := rfl
      rw [hop]
      simp only [step, Stream.RemoveViewer]
      split
      · try dsimp only
        omega
      · try dsimp only
        omega
  | broadcast d =>
      have hop : (if isStartOp (Op.broadcast d) then 1 else 0) = 0 := rfl
      rw [hop]
      simp only [step, Stream.Broadcast]
      split
      · try dsimp only
        omega
      · try dsimp only
        omega
  | deliver =>
      have hop : (if isStartOp Op.deliver then 1 else 0) = 0 := rfl
      rw [hop]
      simp only [step, Stream.deliverOne]
      split
      · try dsimp only
        omega
      · try dsimp only
        omega
  | consume vid =>
      have hop : (if isStartOp (Op.consume vid) then 1 else 0) = 0 := rfl
      rw [hop]
      simp only [step, Stream.consumeOne]
      try dsimp only
      omega

lemma stopWeight_run (ops : List Op) :
    ∀ s : Stream,
      (run s ops).stopChanCloseCount + statusWeight (run s ops).status ≤
        s.stopChanCloseCount + statusWeight s.status + startOps ops := by
  induction ops with
  | nil =>
      intro s
      simp [run, startOps]
  | cons op ops ih =>
      intro s
      have h1 := ih (step s op)
      have h2 := stopWeight_step s op
      have h3 : startOps (op :: ops) = (if isStartOp op then 1 else 0) + startOps ops := by
        rw [startOps, List.countP_cons, startOps]
        split_ifs with hc <;> omega
      have h4 : run s (op :: ops) = run (step s op) ops := rfl
      rw [h4, h3]
      omega

lemma stopped_closed_step (s : Stream) (op : Op)
    (h : s.status = .stopped → 1 ≤ s.stopChanCloseCount) :
    (step s op).status = .stopped → 1 ≤ (step s op).stopChanCloseCount := by
  cases op with
  | start now =>
      simp only [step, Stream.Start]
      split
      · exact h
      · intro hc
        cases hc
  | stop =>
      simp only [step, Stream.Stop]
      split
      · intro _
        try dsimp only
        omega
      · exact h
  | addViewer vid now => exact h
  | removeViewer vid =>
      simp only [step, Stream.RemoveViewer]
      split
      · exact h
      · exact h
  | broadcast d =>
      simp only [step, Stream.Broadcast]
      split
      · exact h
      · exact h
  | deliver =>
      simp only [step, Stream.deliverOne]
      split
      · exact h
      · exact h
  | consume vid => exact h

lemma stopped_closed_run (ops : List Op) :
    ∀ s : Stream, (s.status = .stopped → 1 ≤ s.stopChanCloseCount) →
      (run s ops).status = .stopped → 1 ≤ (run s ops).stopChanCloseCount := by
  induction ops with
  | nil => intro s h; exact h
  | cons op ops ih =>
      intro s h
      exact ih (step s op) (stopped_closed_step s op h)

lemma busInv_step (s : Stream) (op : Op) (h : BusInv s) : BusInv (step s op) := by
  obtain ⟨⟨n, hn, hb, hv⟩, he⟩ := h
  cases op with
  | start now =>
      simp only [step, Stream.Start]
      split
      · exact ⟨⟨n, hn, hb, hv⟩, he⟩
      · exact ⟨⟨n, hn, hb, hv⟩, he⟩
  | stop =>
      simp only [step, Stream.Stop]
      split
      · refine ⟨⟨n, hn, hb, ?_⟩, he⟩
        intro v hv'
        obtain ⟨w, hw, rfl⟩ := List.mem_map.mp hv'
        rw [closeViewerChan_received]
        exact hv w hw
      · exact ⟨⟨n, hn, hb, hv⟩, he⟩
  | addViewer vid now =>
      refine ⟨⟨n, hn, hb, ?_⟩, he⟩
      intro v hv'
      rcases mem_insertViewer _ _ _ hv' with h3 | rfl
      · exact hv v h3
      · exact List.nil_sublist _
  | removeViewer vid =>
      simp only [step, Stream.RemoveViewer]
      split
      · refine ⟨⟨n, hn, hb, ?_⟩, he⟩
        intro v hv'
        exact hv v (List.mem_filter.mp hv').1
      · exact ⟨⟨n, hn, hb, hv⟩, he⟩
  | broadcast d =>
      simp only [step, Stream.Broadcast]
      split
      · refine ⟨⟨n, ?_, ?_, ?_⟩, he.append (List.Sublist.refl [d])⟩
        · rw [List.length_append]
          omega
        · rw [List.drop_append_of_le_length hn, hb]
        · intro v hv'
          rw [List.take_append_of_le_length hn]
          exact hv v hv'
      · exact ⟨⟨n, hn, hb, hv⟩, he.trans (List.sublist_append_left _ _)⟩
  | deliver =>
      simp only [step, Stream.deliverOne]
      split
      · exact ⟨⟨n, hn, hb, hv⟩, he⟩
      · rename_i d rest heq
        have hdn : s.enqueued.drop n = d :: rest := by rw [← hb, heq]
        have hlen : n < s.enqueued.length := by
          by_contra hc
          push_neg at hc
          rw [List.drop_eq_nil_of_le hc] at hdn
          cases hdn
        have hdrop : s.enqueued.drop (n + 1) = rest := by
          rw [← List.drop_drop, hdn]
          rfl
        have htake : s.enqueued.take (n + 1) = s.enqueued.take n ++ [d] := by
          rw [List.take_add, hdn]
          rfl
        have hng : n + 1 ≤ s.enqueued.length := by omega
        refine ⟨⟨n + 1, hng, hdrop.symm, ?_⟩, he⟩
        intro v hv'
        obtain ⟨w, hw, rfl⟩ := List.mem_map.mp hv'
        rw [htake]
        by_cases hc : w.dataChan.length < viewerChanCap
        · rw [if_pos hc]
          exact (hv w hw).append (List.Sublist.refl [d])
        · rw [if_neg hc]
          exact (hv w hw).trans (List.sublist_append_left _ _)
  | consume vid =>
      simp only [step, Stream.consumeOne]
      refine ⟨⟨n, hn, hb, ?_⟩, he⟩
      intro v hv'
      obtain ⟨w, hw, rfl⟩ := List.mem_map.mp hv'
      by_cases hc : w.id = vid
      · rw [if_pos hc]
        exact hv w hw
      · rw [if_neg hc]
        exact hv w hw

lemma busInv_run (ops : List Op) : ∀ s : Stream, BusInv s → BusInv (run s ops) := by
  induction ops with
  | nil => intro s h; exact h
  | cons op ops ih =>
      intro s h
      exact ih (step s op) (busInv_step s op h)

lemma pollInputs_iff (fs : Nat → Path → Option ℤ) (files : List Path) :
    ∀ (fuel t : Nat), pollInputs fs files t fuel = true ↔
      ∃ k, k < fuel ∧ allInputsReady fs (t + k) files = true := by
  intro fuel
  induction fuel with
  | zero => intro t; simp [pollInputs]
  | succ n ih =>
      intro t
      constructor
      · intro hp
        rw [pollInputs] at hp
        by_cases h : allInputsReady fs t files = true
        · exact ⟨0, Nat.succ_pos n, by simpa using h⟩
        · rw [if_neg h] at hp
          obtain ⟨k, hk, hr⟩ := (ih (t + 1)).mp hp
          exact ⟨k + 1, by omega, by rw [show t + (k + 1) = t + 1 + k by omega]; exact hr⟩
      · rintro ⟨k, hk, hr⟩
        rw [pollInputs]
        by_cases h : allInputsReady fs t files = true
        · simp [h]
        · rw [if_neg h]
          apply (ih (t + 1)).mpr
          cases k with
          | zero => rw [Nat.add_zero] at hr; exact absurd hr h
          | succ m =>
              exact ⟨m, by omega, by rw [show t + 1 + m = t + (m + 1) by omega]; exact hr⟩

/-! ## Claim theorems -/

/-- C4 counterexample: deleting the registry entry of a streaming
stream with a live pipeline removes the entry and stops the stream, but
the bound orchestrator is untouched: its running, transcoder and
uploader flags are all still true afterwards, so the running pipeline
(encoder and uploader) is not stopped. -/
theorem C4_delete_does_not_stop_pipeline :
    (BroadcastManager.DeleteStream demoManager "s1").2.toOption.map
        (fun s => (s.status, s.orchestrator.map fun o =>
          (o.running, o.transcoderRunning, o.uploaderRunning))) =
      some (.stopped, some (true, true, true)) := by
  decide

/-- C4 amended: DeleteStream on a streaming stream invokes Stream.Stop
before removal (the removed object is stopped, its stop channel closed
once more and every remaining viewer queue closed), then removes the
entry so GetStream fails with not-found; but the bound orchestrator is
left exactly as it was, so the encoder and uploader are not stopped. -/
theorem C4_delete_streaming :
    ∀ (bm : BroadcastManager) (streamID : String) (s : Stream),
      lookupStream bm streamID = some s → s.status = .streaming →
      (BroadcastManager.DeleteStream bm streamID).2 = .ok (Stream.Stop s).1 ∧
      (Stream.Stop s).1.status = .stopped ∧
      (Stream.Stop s).1.stopChanCloseCount = s.stopChanCloseCount + 1 ∧
      (Stream.Stop s).1.orchestrator = s.orchestrator ∧
      (∀ v ∈ (Stream.Stop s).1.viewers, v.closed = true) ∧
      BroadcastManager.GetStream (BroadcastManager.DeleteStream bm streamID).1 streamID =
        none := by
  intro bm streamID s h hs
  refine ⟨?_, ?_, ?_, ?_, ?_, ?_⟩
  · simp [BroadcastManager.DeleteStream, h, hs]
  · simp [Stream.Stop, hs]
  · simp [Stream.Stop, hs]
  · simp [Stream.Stop, hs]
  · intro v hv
    simp only [Stream.Stop, if_pos hs] at hv
    obtain ⟨w, hw, rfl⟩ := List.mem_map.mp hv
    exact closeViewerChan_closed w
  · simp only [BroadcastManager.DeleteStream, h]
    simp only [BroadcastManager.GetStream, lookupStream]
    rw [Option.map_eq_none', List.find?_eq_none]
    intro p hp
    have := (List.mem_filter.mp hp).2
    simp at this ⊢
    exact this

/-- C4 witness: the amended theorem applied to the registry holding the
streaming stream with its running orchestrator. -/
theorem C4_delete_streaming_witness :
    (BroadcastManager.DeleteStream demoManager "s1").2 = .ok (Stream.Stop demoStreamingOrch).1 ∧
    BroadcastManager.GetStream (BroadcastManager.DeleteStream demoManager "s1").1 "s1" =
      none := by
  have h := C4_delete_streaming demoManager "s1" demoStreamingOrch (by decide) (by decide)
  exact ⟨h.1, h.2.2.2.2.2⟩

/-- C10: for a slash-prefixed path or a pipe-delimited list, the
readiness wait returns success exactly when at some 500 ms poll within
the 10 s window every listed file exists with at least 1024 bytes; and
whatever the wait returns (in particular on timeout), Start does not
fail because of it: with the pipeline steps succeeding, Start returns
success and starts the encoder, with no condition on the filesystem. -/
theorem C10_input_readiness :
    (∀ (fs : Nat → Path → Option ℤ) (url : Path) (files : List Path),
        parseInputFiles url = some files →
        (waitForInputFiles fs url = true ↔
          ∃ t, 1 ≤ t ∧ t ≤ numPolls ∧ allInputsReady fs t files = true)) ∧
    ∀ (o : StreamOrchestrator) (env : OrchEnv) (url : Path),
      o.running = false → env.transcoderOk = true → env.uploaderNewOk = true →
      env.uploaderStartOk = true →
      (OrchStart o env url).2 = .ok ∧
      (OrchStart o env url).1.transcoderRunning = true ∧
      (OrchStart o env url).1.running = true := by
  constructor
  · intro fs url files hp
    rw [waitForInputFiles, hp]
    rw [pollInputs_iff]
    constructor
    · rintro ⟨k, hk, hr⟩
      exact ⟨1 + k, by omega, by omega, hr⟩
    · rintro ⟨t, h1, h2, hr⟩
      exact ⟨t - 1, by omega, by rw [show 1 + (t - 1) = t by omega]; exact hr⟩
  · intro o env url ho ht hn hs
    simp [OrchStart, ho, ht, hn, hs]

/-- C7: along every trace of operations from a freshly created stream
(so after creation and after every AddViewer and RemoveViewer, with
any interleaved starts, stops, broadcasts, deliveries and receives),
the ViewerCount field equals the number of entries of the viewers map,
whose keys stay distinct. -/
theorem C7_viewer_count_matches_map :
    ∀ (ops : List Op) (id videoURL gcsPath : String) (now : ℚ),
      (run (freshStream id videoURL gcsPath now) ops).viewerCount =
        (run (freshStream id videoURL gcsPath now) ops).viewers.length ∧
      ((run (freshStream id videoURL gcsPath now) ops).viewers.map Viewer.id).Nodup := by
  intro ops id videoURL gcsPath now
  exact countInv_run ops (freshStream id videoURL gcsPath now) ⟨rfl, List.nodup_nil⟩

/-- C8 counterexample: the claim says two Stop calls never panic and
close the shutdown channel exactly once across both calls; but because
Start accepts a stopped stream (C1), the trace start-stop-start-stop
makes the second Stop close the already-closed stop channel: the close
counter reaches 2, the modelled close-of-closed-channel panic. -/
theorem C8_double_stop_after_restart_panics :
    (run demoFresh [Op.start 1, Op.stop, Op.start 2, Op.stop]).stopChanCloseCount = 2 := by
  decide

/-- C8 amended: along any trace containing at most one Start call, the
stop channel is closed at most once, and exactly once when the stream
ends up stopped; independently of the number of starts, every live
viewer queue is closed at most once (the counter is one exactly when
the closed flag is set) and every removed viewer queue was closed
exactly once, whether the close came from Stop or from RemoveViewer. -/
theorem C8_stop_close_once :
    ∀ (ops : List Op) (id videoURL gcsPath : String) (now : ℚ),
      startOps ops ≤ 1 →
      (run (freshStream id videoURL gcsPath now) ops).stopChanCloseCount ≤ 1 ∧
      ((run (freshStream id videoURL gcsPath now) ops).status = .stopped →
        (run (freshStream id videoURL gcsPath now) ops).stopChanCloseCount = 1) ∧
      (∀ v ∈ (run (freshStream id videoURL gcsPath now) ops).viewers,
        v.dataChanCloseCount ≤ 1 ∧ (v.dataChanCloseCount = 1 ↔ v.closed = true)) ∧
      ∀ v ∈ (run (freshStream id videoURL gcsPath now) ops).departed,
        v.closed = true ∧ v.dataChanCloseCount = 1 := by
  intro ops id videoURL gcsPath now hops
  have hchan := chanInv_run ops (freshStream id videoURL gcsPath now)
    ⟨fun v hv => absurd hv (List.not_mem_nil v), fun v hv => absurd hv (List.not_mem_nil v)⟩
  have hw := stopWeight_run ops (freshStream id videoURL gcsPath now)
  have hstart0 : (freshStream id videoURL gcsPath now).stopChanCloseCount = 0 := rfl
  have hsw0 : statusWeight (freshStream id videoURL gcsPath now).status = 0 := rfl
  have hle : (run (freshStream id videoURL gcsPath now) ops).stopChanCloseCount ≤ 1 := by
    rw [hstart0, hsw0] at hw
    omega
  have hstopped := stopped_closed_run ops (freshStream id videoURL gcsPath now)
    (by intro hc; cases hc)
  refine ⟨hle, fun hs => ?_, fun v hv => ?_, hchan.2⟩
  · have := hstopped hs
    omega
  · have h1 := hchan.1 v hv
    rw [ViewerCloseInv] at h1
    constructor
    · rw [h1]
      split <;> omega
    · constructor
      · intro hone
        by_contra hc
        simp only [Bool.not_eq_true] at hc
        rw [hc] at h1
        simp at h1
        omega
      · intro hcl
        rw [h1, if_pos hcl]

/-- C8 witness: a single-lifetime trace with a viewer, a plain double
stop and a removal; the stop channel is closed once and the removed
viewer queue exactly once. -/
theorem C8_stop_close_once_witness :
    (run (freshStream "s1" "u" "g" 0)
        [Op.addViewer "v" 0, Op.start 1, Op.stop, Op.stop, Op.removeViewer "v"]).stopChanCloseCount ≤ 1 ∧
    ∀ v ∈ (run (freshStream "s1" "u" "g" 0)
        [Op.addViewer "v" 0, Op.start 1, Op.stop, Op.stop, Op.removeViewer "v"]).departed,
      v.closed = true ∧ v.dataChanCloseCount = 1 := by
  have h := C8_stop_close_once
    [Op.addViewer "v" 0, Op.start 1, Op.stop, Op.stop, Op.removeViewer "v"]
    "s1" "u" "g" 0 (by decide)
  exact ⟨h.1, h.2.2.2⟩

/-- C9: Broadcast never blocks and silently drops the frame exactly
when the bus buffer is full, otherwise it enqueues it; and along every
trace from a fresh stream, the enqueued frames form a subsequence of
the offered ones and every live viewer has received a subsequence of
the enqueued frames in bus order (drops create gaps, never
reorderings). -/
theorem C9_broadcast_drop_and_order :
    (∀ (s : Stream) (data : Nat), ¬s.broadcast.length < busCap →
        Stream.Broadcast s data = { s with offered := s.offered ++ [data] }) ∧
    (∀ (s : Stream) (data : Nat), s.broadcast.length < busCap →
        Stream.Broadcast s data =
          { s with broadcast := s.broadcast ++ [data]
                   enqueued := s.enqueued ++ [data]
                   offered := s.offered ++ [data] }) ∧
    ∀ (ops : List Op) (id videoURL gcsPath : String) (now : ℚ),
      List.Sublist (run (freshStream id videoURL gcsPath now) ops).enqueued
        (run (freshStream id videoURL gcsPath now) ops).offered ∧
      ∀ v ∈ (run (freshStream id videoURL gcsPath now) ops).viewers,
        List.Sublist v.received (run (freshStream id videoURL gcsPath now) ops).enqueued := by
  refine ⟨?_, ?_, ?_⟩
  · intro s data hfull
    rw [Stream.Broadcast, if_neg hfull]
  · intro s data hroom
    rw [Stream.Broadcast, if_pos hroom]
  · intro ops id videoURL gcsPath now
    have h := busInv_run ops (freshStream id videoURL gcsPath now)
      ⟨⟨0, Nat.le_refl 0, rfl, fun v hv => absurd hv (List.not_mem_nil v)⟩, List.Sublist.refl []⟩
    obtain ⟨⟨n, hn, hb, hv⟩, he⟩ := h
    exact ⟨he, fun v hv' => (hv v hv').trans (List.take_sublist n _)⟩

/-- C9 witness: a full bus drops a frame leaving the buffer unchanged,
an empty bus enqueues it, and after the demo trace the delivered viewer
history is a subsequence of the enqueued frames. -/
theorem C9_broadcast_drop_and_order_witness :
    Stream.Broadcast fullBusStream 9 =
      { fullBusStream with offered := fullBusStream.offered ++ [9] } ∧
    Stream.Broadcast demoFresh 5 =
      { demoFresh with broadcast := demoFresh.broadcast ++ [5]
                       enqueued := demoFresh.enqueued ++ [5]
                       offered := demoFresh.offered ++ [5] } ∧
    List.Sublist demoViewer.received (run demoFresh demoOps).enqueued :=
  ⟨C9_broadcast_drop_and_order.1 fullBusStream 9 (by decide),
   C9_broadcast_drop_and_order.2.1 demoFresh 5 (by decide),
   (C9_broadcast_drop_and_order.2.2 demoOps "s1" "u" "g" 0).2 demoViewer (by decide)⟩

/-- C10 witness: a ready filesystem makes the wait succeed for the path
/a, and with no files ever appearing (timeout) Start still returns
success. -/
theorem C10_input_readiness_witness :
    waitForInputFiles fsReady ("/a".data) = true ∧
    (OrchStart (NewStreamOrchestrator "s1") envNoFiles ("/a".data)).2 = .ok :=
  ⟨(C10_input_readiness.1 fsReady ("/a".data) ["/a".data] (by decide)).mpr
      ⟨1, by decide, by decide, by decide⟩,
   (C10_input_readiness.2 (NewStreamOrchestrator "s1") envNoFiles ("/a".data)
      rfl rfl rfl rfl).1⟩

/-- C1: the spec says status transitions are monotone per lifetime with
Stopped terminal, and that after Stop no Start returns success.  The
code violates this: the Start guard only rejects the streaming state, so
Start on a stopped stream returns nil and moves the status back to
streaming; the restarted lifetime is broken (the next Stop closes the
already-closed stop channel, a double-close panic, counted 2 here). -/
theorem C1_start_after_stop_succeeds :
    (Stream.Start demoFresh 1).2 = .ok ∧
    (Stream.Stop demoStreaming).2 = .ok ∧
    demoStopped.status = .stopped ∧
    (Stream.Start demoStopped 2).2 = .ok ∧
    demoRestarted.status = .streaming ∧
    (Stream.Stop demoRestarted).1.stopChanCloseCount = 2 := by
  decide

/-- C2 counterexample: a stream started through Stream.Start is in
streaming state with no orchestrator bound at all, so a streaming
stream does not have exactly one live PipelineOrchestrator. -/
theorem C2_streaming_without_orchestrator :
    (Stream.Start demoFresh 1).2 = .ok ∧
    demoStreaming.status = .streaming ∧
    demoStreaming.orchestrator = none := by
  decide

/-- C2 amended: Stream.Start never binds an orchestrator (the binding
is unchanged), and it is startStreamOrchestrator that, when it returns
success, leaves exactly one running orchestrator bound to the stream,
carrying the stream id. -/
theorem C2_orchestrator_binding :
    (∀ (s : Stream) (now : ℚ), ((Stream.Start s now).1).orchestrator = s.orchestrator) ∧
    ∀ (s : Stream) (env : OrchEnv), (startStreamOrchestrator s env).2 = .ok →
      ∃ o, (startStreamOrchestrator s env).1.orchestrator = some o ∧
        o.running = true ∧ o.transcoderRunning = true ∧ o.uploaderRunning = true ∧
        o.streamID = s.id := by
  constructor
  · intro s now
    rw [Stream.Start]
    split <;> rfl
  · intro s env h
    have h2 : (OrchStart (NewStreamOrchestrator s.id) env (ingestVideoPath s.id)).2 = .ok := h
    refine ⟨(OrchStart (NewStreamOrchestrator s.id) env (ingestVideoPath s.id)).1, rfl, ?_⟩
    rw [OrchStart_ok_state _ _ _ h2]
    exact ⟨rfl, rfl, rfl, rfl⟩

/-- C2 witness: applying the amended theorem to a fresh stream and an
environment where the pipeline starts cleanly. -/
theorem C2_orchestrator_binding_witness :
    ∃ o, (startStreamOrchestrator demoFresh envAllOk).1.orchestrator = some o ∧
      o.running = true ∧ o.transcoderRunning = true ∧ o.uploaderRunning = true ∧
      o.streamID = demoFresh.id :=
  C2_orchestrator_binding.2 demoFresh envAllOk (by decide)

/-- C3 counterexample: a second Stream.Stop after a successful stop
returns the stream-not-streaming error, not success (the state is
indeed unchanged). -/
theorem C3_duplicate_stream_stop_errors :
    (Stream.Stop demoStopped).2 = .errNotStreaming ∧
    (Stream.Stop demoStopped).1 = demoStopped := by
  decide

/-- C3 amended: duplicate Start returns the already-running error with
no side effects for both the orchestrator and the stream; duplicate
Stop returns success with no side effects for the orchestrator, while
the stream's duplicate Stop returns the not-streaming error with no
side effects. -/
theorem C3_duplicate_start_stop :
    (∀ (o : StreamOrchestrator) (env : OrchEnv) (u : Path), o.running = true →
        OrchStart o env u = (o, .errAlreadyRunning)) ∧
    (∀ o : StreamOrchestrator, o.running = false → OrchStop o = (o, .ok)) ∧
    (∀ (s : Stream) (now : ℚ), s.status = .streaming →
        Stream.Start s now = (s, .errAlreadyStarted)) ∧
    ∀ s : Stream, ¬s.status = .streaming → Stream.Stop s = (s, .errNotStreaming) := by
  refine ⟨?_, ?_, ?_, ?_⟩
  · intro o env u h
    simp [OrchStart, h]
  · intro o h
    simp [OrchStop, h]
  · intro s now h
    simp [Stream.Start, h]
  · intro s h
    simp [Stream.Stop, h]

/-- C3 witness: the four parts of the amended statement applied to
concrete running and idle states. -/
theorem C3_duplicate_start_stop_witness :
    OrchStart { NewStreamOrchestrator "s1" with running := true } envAllOk [] =
      ({ NewStreamOrchestrator "s1" with running := true }, .errAlreadyRunning) ∧
    OrchStop (NewStreamOrchestrator "s1") = (NewStreamOrchestrator "s1", .ok) ∧
    Stream.Start demoStreaming 5 = (demoStreaming, .errAlreadyStarted) ∧
    Stream.Stop demoStopped = (demoStopped, .errNotStreaming) :=
  ⟨C3_duplicate_start_stop.1 _ envAllOk [] rfl,
   C3_duplicate_start_stop.2.1 _ rfl,
   C3_duplicate_start_stop.2.2.1 demoStreaming 5 (by decide),
   C3_duplicate_start_stop.2.2.2 demoStopped (by decide)⟩

/-- C5 counterexample: with startedAt set and a positive duration of
one half second, GetCurrentPosition does not return a value at all: the
modelled modulo-by-zero panic (none) occurs, so the claimed equation
for every positive duration fails. -/
theorem C5_subsecond_duration_position :
    0 < streamHalfSecond.videoDuration ∧
    Stream.GetCurrentPosition streamHalfSecond 5 = none := by
  constructor
  · norm_num [streamHalfSecond, freshStream]
  · have hD : streamHalfSecond.videoDuration = 1/2 := rfl
    have hfD : goTrunc streamHalfSecond.videoDuration = 0 := by
      rw [goTrunc, if_pos (by rw [hD]; norm_num), hD]
      norm_num
    simp only [Stream.GetCurrentPosition, show streamHalfSecond.startedAt = some 0 from rfl]
    rw [if_neg (by rw [hD]; norm_num), hfD, goIntMod_zero]
    rfl

/-- C5 amended: GetCurrentPosition returns 0 when startedAt is unset or
the duration is not positive, and equals floor(uptime) mod floor(D)
whenever the duration is at least one second; for positive durations
below one second the computation is a modulo by zero (C6). -/
theorem C5_current_position :
    (∀ (s : Stream) (now : ℚ), s.startedAt = none →
        Stream.GetCurrentPosition s now = some 0) ∧
    (∀ (s : Stream) (now t0 : ℚ), s.startedAt = some t0 → s.videoDuration ≤ 0 →
        Stream.GetCurrentPosition s now = some 0) ∧
    ∀ (s : Stream) (now t0 : ℚ), s.startedAt = some t0 → 0 ≤ now - t0 →
      1 ≤ s.videoDuration →
      Stream.GetCurrentPosition s now =
        some ((⌊now - t0⌋ % ⌊s.videoDuration⌋ : ℤ) : ℚ) := by
  refine ⟨?_, ?_, ?_⟩
  · intro s now h
    simp [Stream.GetCurrentPosition, h]
  · intro s now t0 h hD
    simp [Stream.GetCurrentPosition, h, hD]
  · intro s now t0 h hu hD
    have hD0 : ¬s.videoDuration ≤ 0 := by linarith
    have hfD : (1 : ℤ) ≤ ⌊s.videoDuration⌋ := Int.le_floor.mpr (by exact_mod_cast hD)
    have hfu : (0 : ℤ) ≤ ⌊now - t0⌋ := Int.le_floor.mpr (by exact_mod_cast hu)
    simp only [Stream.GetCurrentPosition, h]
    rw [if_neg hD0, goTrunc_nonneg _ hu, goTrunc_nonneg _ (by linarith), goIntMod,
      if_neg (by omega), Int.tmod_eq_emod hfu (by omega)]
    rfl

/-- C5 witness: a started stream with a three-second video, observed at
uptime five seconds, reports position 5 mod 3 = 2. -/
theorem C5_current_position_witness :
    Stream.GetCurrentPosition streamThreeSeconds 5 = some 2 := by
  have h := C5_current_position.2.2 streamThreeSeconds 5 0 rfl (by norm_num)
    (by norm_num [streamThreeSeconds, freshStream])
  rw [h, show streamThreeSeconds.videoDuration = 3 from rfl]
  norm_num

/-- C6: for a started stream with a positive duration below one second,
both GetCurrentPosition and the current-position computation of
GetStats perform an integer modulo by zero (a runtime panic, modelled
as none): the guard excludes only non-positive durations. -/
theorem C6_subsecond_duration_mod_zero :
    ∀ (s : Stream) (now t0 : ℚ), s.startedAt = some t0 →
      0 < s.videoDuration → s.videoDuration < 1 →
      Stream.GetCurrentPosition s now = none ∧
      Stream.statsCurrentPosition s now = none := by
  intro s now t0 h h0 h1
  have hge : (0 : ℤ) ≤ ⌊s.videoDuration⌋ := Int.le_floor.mpr (by exact_mod_cast le_of_lt h0)
  have hlt : ⌊s.videoDuration⌋ < 1 := Int.floor_lt.mpr (by exact_mod_cast h1)
  have hfD : goTrunc s.videoDuration = 0 := by
    rw [goTrunc_nonneg _ (le_of_lt h0)]
    omega
  constructor
  · simp only [Stream.GetCurrentPosition, h]
    rw [if_neg (not_le.mpr h0), hfD, goIntMod_zero]
    rfl
  · simp only [Stream.statsCurrentPosition, h]
    rw [if_pos h0, hfD, goIntMod_zero]
    rfl

/-- C6 witness: the half-second stream at uptime five panics in both
computations. -/
theorem C6_subsecond_duration_mod_zero_witness :
    Stream.GetCurrentPosition streamHalfSecond 7 = none ∧
    Stream.statsCurrentPosition streamHalfSecond 7 = none :=
  C6_subsecond_duration_mod_zero streamHalfSecond 7 0 rfl
    (by norm_num [streamHalfSecond, freshStream])
    (by norm_num [streamHalfSecond, freshStream])

end LiveVideo
